import Mathlib

/-!
Shallow embedding of the `documents` crate's core: filename decomposition
(`parse_filepath`), collision resolution under the three creation policies
(`Document.setup`), file-handle write operations (`Document.append`,
`Document.replace_with`), and the batch entry point (`with`, embedded as
`with_documents`).

Strings are Lean `String`s and indices into them are character indices; the
source uses byte indices, but every index involved is a char boundary
produced by `rfind`, so the two views agree on ordering, on the substring
between two such indices, and on the out-of-bounds condition.  The
filesystem is explicit state: a list of existing files with byte contents
plus a list of existing directories.  A Rust panic (process abort) is
modelled as `none`.
-/

deriving instance DecidableEq for Except

namespace Documents

/-- Bytes of file contents; the source passes `&[u8]`. -/
abbrev Byte := Nat

/-- The `Create` policy enum (src/src/create.rs). -/
inductive Create where
  | No
  | OnlyIfNotExists
  | AutoRenameIfExists
deriving DecidableEq

/-- The `Mode` enum (src/src/mode.rs). -/
inductive Mode where
  | Read
  | Replace
  | Append
  | ReadReplace
  | ReadAppend
deriving DecidableEq

/-- `Mode::readable`. -/
def Mode.readable : Mode → Bool
  | Mode.Read | Mode.ReadReplace | Mode.ReadAppend => true
  | _ => false

/-- `Mode::writable`. -/
def Mode.writable : Mode → Bool
  | Mode.Replace | Mode.Append | Mode.ReadAppend | Mode.ReadReplace => true
  | _ => false

/-- `Mode::appendable`. -/
def Mode.appendable : Mode → Bool
  | Mode.Append | Mode.ReadAppend => true
  | _ => false

/-- The `DocumentError` enum (src/src/document_error.rs). -/
inductive DocumentError where
  | UserDirsNotFound
  | PicturesDirNotFound
  | VideosDirNotFound
  | DownloadsDirNotFound
  | DocumentsDirNotFound
  | ProjectDirsNotFound
  | FileNotFound (path : String)
  | CouldNotCreateFile (path : String)
  | CouldNotCreateParentFolder (path : String)
  | CouldNotLaunchFile (path : String)
  | CouldNotOpenFile (path : String)
  | FileNotWritable (path : String)
  | FileNotOpen (path : String)
deriving DecidableEq

/-- A `Box<dyn Error>`: either one of the library's `DocumentError`s or an
OS-level `std::io::Error` propagated by a `?` operator. -/
inductive Err where
  | doc (e : DocumentError)
  | os
deriving DecidableEq

/-- A `PathBuf` whose final component is a plain filename: `parent` is the
directory part (kept opaque) and `fname` the final component, assumed to be
a normal component (nonempty, no separators, not `..`). -/
structure Filepath where
  parent : String
  fname : String
deriving DecidableEq

/-- `PathBuf::display` / the `path()` accessor, as a plain join. -/
def Filepath.path (p : Filepath) : String :=
  if p.parent = "" then p.fname else p.parent ++ "/" ++ p.fname

/-- The filesystem state: existing files with their contents, and existing
directories. -/
structure FS where
  files : List (Filepath × List Byte)
  dirs : List String
deriving DecidableEq

/-- `Path::exists` on a file path. -/
def FS.existsFile (fs : FS) (p : Filepath) : Bool :=
  fs.files.any (fun e => e.1 == p)

/-- `std::fs::create_dir_all`, modelled as succeeding (the failure branch of
the source maps to `CouldNotCreateParentFolder`); creating an existing
directory is a no-op. -/
def FS.create_dir_all (fs : FS) (d : String) : FS :=
  if fs.dirs.contains d then fs else FS.mk fs.files (d :: fs.dirs)

/-- `OpenOptions::new().read(false).write(true).create_new(true).open(p)`:
fails if a file already exists at `p`, otherwise creates it empty. -/
def FS.create_new (fs : FS) (p : Filepath) : Except Err FS :=
  if fs.existsFile p then Except.error Err.os
  else Except.ok (FS.mk ((p, []) :: fs.files) fs.dirs)

/-- Index, counted from the front, of the last occurrence of `c`, as in
`str::rfind`. -/
def rfindPos : List Char → Char → Option Nat
  | [], _ => none
  | a :: as, c =>
    match rfindPos as c with
    | some i => some (i + 1)
    | none => if a = c then some 0 else none

/-- `str::strip_suffix`. -/
def stripSuffix (s suffix : List Char) : Option (List Char) :=
  if suffix.isSuffixOf s then some (s.take (s.length - suffix.length)) else none

/-- `Path::extension` on a plain final component: the part after the last
dot, provided that dot is not the leading character. -/
def extensionOf (fname : String) : Option String :=
  match rfindPos fname.data '.' with
  | none => none
  | some 0 => none
  | some i => some (String.mk (fname.data.drop (i + 1)))

/-- Value of a list of decimal digit characters. -/
def digitsVal (l : List Char) : Nat :=
  l.foldl (fun a c => 10 * a + (c.toNat - 48)) 0

/-- `i64::from_str` (`str::parse::<i64>()`): an optional sign followed by
one or more ascii digits, range-checked against the `i64` bounds. -/
def parseI64 (l : List Char) : Option Int :=
  let signedPart : Bool × List Char :=
    match l with
    | [] => (false, [])
    | c :: rest =>
      if c = '+' then (false, rest)
      else if c = '-' then (true, rest)
      else (false, c :: rest)
  match signedPart with
  | (neg, digits) =>
    if digits = [] then none
    else if digits.all (fun c => c.isDigit) then
      let v : Int := if neg then -(digitsVal digits : Int) else (digitsVal digits : Int)
      if -(2 ^ 63) ≤ v ∧ v ≤ 2 ^ 63 - 1 then some v else none
    else none

/-- Decimal digits of `n`, most significant first; `fuel` bounds the
recursion and any `fuel ≥ n` is enough. -/
def natDigits : Nat → Nat → List Char
  | 0, _ => []
  | _ + 1, 0 => []
  | fuel + 1, n + 1 =>
    natDigits fuel ((n + 1) / 10) ++ [Char.ofNat (48 + (n + 1) % 10)]

/-- `i64`'s `Display`/`to_string`: decimal with a leading `-` when negative. -/
def intToStr (i : Int) : String :=
  if i = 0 then "0"
  else if i < 0 then String.mk ('-' :: natDigits i.natAbs i.natAbs)
  else String.mk (natDigits i.natAbs i.natAbs)

/-- The `extension` local of `parse_filepath` (src/src/document.rs 42-51):
`"." + path.extension().unwrap_or_default()`, mapped to `None` when the
result is the bare `"."`. -/
def parsedExtension (fname : String) : Option String :=
  let e := "." ++ ((extensionOf fname).getD "")
  if e = "." then none else some e

/-- The working name after the extension suffix has been stripped
(src/src/document.rs 41-57). -/
def stemAfterExtension (fname : String) : String :=
  match parsedExtension fname with
  | some ext =>
    match stripSuffix fname.data ext.data with
    | some new_name => String.mk new_name
    | none => fname
  | none => fname

/-- `parse_filepath` (src/src/document.rs lines 40-82).  Returns `none`
where the source panics: when both brackets are found in the
extension-stripped name and the last `)` lies strictly before the last `(`,
the Rust expression `close_bracket_index - open_bracket_index` underflows
(debug) or sends `split_at` out of bounds (release), aborting either way.
Note the parsed slice is `name[open..close]`, whose first character is the
`(` found by `rfind`. -/
def parse_filepath (fname : String) : Option (String × Option Int × Option String) :=
  let extension : Option String := parsedExtension fname
  let name1 : String := stemAfterExtension fname
  let open_bracket_index := rfindPos name1.data '('
  let close_bracket_index := rfindPos name1.data ')'
  match open_bracket_index, close_bracket_index with
  | some o, some c =>
    if c < o then none
    else
      match parseI64 ((name1.data.drop o).take (c - o)) with
      | some number =>
        let name2 : String :=
          match stripSuffix name1.data ("(" ++ intToStr number ++ ")").data with
          | some new_name => String.mk new_name
          | none => name1
        some (name2, some number, extension)
      | none => some (name1, none, extension)
  | _, _ => some (name1, none, extension)

/-- Candidate filename assembled inside the rename loop:
`name + "(" + n + ")" + extension`, the extension omitted when it is empty
or equal to `"."`. -/
def renameCandidate (name extension : String) (n : Int) : String :=
  name ++ "(" ++ intToStr n ++ ")" ++
    (if 0 < extension.length ∧ extension ≠ "." then extension else "")

/-- The `while pathbuf.exists()` loop of `Create::AutoRenameIfExists`
(src/src/document.rs 124-140), with explicit fuel; `none` is an artifact of
the model only (the source loop terminates on every finite filesystem). -/
def autoRenameLoop (fs : FS) (parent name extension : String) :
    Nat → Int → Filepath → Option Filepath
  | 0, _, _ => none
  | fuel + 1, duplicate_number, pathbuf =>
    if fs.existsFile pathbuf then
      let n := duplicate_number + 1
      autoRenameLoop fs parent name extension fuel n
        (Filepath.mk parent (renameCandidate name extension n))
    else some pathbuf

/-- `Document` (src/src/document.rs 24-32). -/
structure Document where
  «alias» : String
  pathbuf : Filepath
  create_policy : Create
deriving DecidableEq

/-- The policy-specific block of `Document::setup` (the `match create` at
src/src/document.rs 99-150): directory creation, the rename loop, and
exclusive file creation, all skipping file creation when `dry_run`. -/
def Document.setup_policy (pathbuf : Filepath) (create : Create) (dry_run : Bool)
    (name extension : String) (duplicate_number : Int) (fs : FS) :
    Option (Except Err Filepath × FS) :=
  match create with
  | Create.OnlyIfNotExists =>
    let fs1 := fs.create_dir_all pathbuf.parent
    if ¬ fs1.existsFile pathbuf ∧ ¬ dry_run then
      match fs1.create_new pathbuf with
      | Except.ok fs2 => some (Except.ok pathbuf, fs2)
      | Except.error e => some (Except.error e, fs1)
    else some (Except.ok pathbuf, fs1)
  | Create.AutoRenameIfExists =>
    let fs1 := fs.create_dir_all pathbuf.parent
    match autoRenameLoop fs1 pathbuf.parent name extension
        (fs1.files.length + 1) duplicate_number pathbuf with
    | none => none
    | some pb =>
      if ¬ dry_run then
        match fs1.create_new pb with
        | Except.ok fs2 => some (Except.ok pb, fs2)
        | Except.error e => some (Except.error e, fs1)
      else some (Except.ok pb, fs1)
  | Create.No => some (Except.ok pathbuf, fs)

/-- The final existence check of `Document::setup`
(src/src/document.rs 151-153). -/
def Document.setup_post (dry_run : Bool) (step : Option (Except Err Filepath × FS)) :
    Option (Except Err Filepath × FS) :=
  match step with
  | none => none
  | some (Except.error e, fs2) => some (Except.error e, fs2)
  | some (Except.ok pb, fs2) =>
    if ¬ fs2.existsFile pb ∧ ¬ dry_run then
      some (Except.error (Err.doc (DocumentError.FileNotFound pb.path)), fs2)
    else some (Except.ok pb, fs2)

/-- `Document::setup` (src/src/document.rs 85-155), in state-passing form:
the `Result` together with the filesystem after the call.  The outer `none`
models a panic inside `parse_filepath`, or exhausted loop fuel (unreachable
on the fuel chosen here). -/
def Document.setup (pathbuf : Filepath) (create : Create) (dry_run : Bool) (fs : FS) :
    Option (Except Err Filepath × FS) :=
  match parse_filepath pathbuf.fname with
  | none => none
  | some (name, duplicate_number_option, extension_option) =>
    let duplicate_number : Int :=
      match duplicate_number_option with
      | some number => number
      | none => 0
    let extension : String :=
      match extension_option with
      | some ext => ext
      | none => ""
    Document.setup_post dry_run
      (Document.setup_policy pathbuf create dry_run name extension duplicate_number fs)

/-- `Document::open_file` (src/src/document.rs 214-224): `OpenOptions` with
the mode's capability triple and neither a create nor a truncate flag, so
the open succeeds exactly when the file exists; any OS-level failure is
collapsed to `CouldNotOpenFile`. -/
def Document.open_file (d : Document) (_permissions : Mode) (fs : FS) : Except Err Unit :=
  if fs.existsFile d.pathbuf then Except.ok ()
  else Except.error (Err.doc (DocumentError.CouldNotOpenFile d.pathbuf.path))

/-- `File::write_all` on a handle opened by `open_file`: the open never sets
`truncate`, so an append-mode handle writes at the end of the file, while a
plain write-mode handle writes from offset 0 and keeps any tail of the old
contents beyond the written bytes. -/
def FS.write_all (fs : FS) (p : Filepath) (permissions : Mode) (content : List Byte) : FS :=
  FS.mk
    (fs.files.map (fun e =>
      if e.1 == p then
        (e.1,
          if permissions.appendable then e.2 ++ content
          else content ++ e.2.drop content.length)
      else e))
    fs.dirs

/-- `Document::append` (src/src/document.rs 253-257). -/
def Document.append (d : Document) (content : List Byte) (fs : FS) :
    Except Err (Document × FS) :=
  match d.open_file Mode.Append fs with
  | Except.error e => Except.error e
  | Except.ok _ => Except.ok (d, fs.write_all d.pathbuf Mode.Append content)

/-- `Document::replace_with` (src/src/document.rs 267-271). -/
def Document.replace_with (d : Document) (content : List Byte) (fs : FS) :
    Except Err (Document × FS) :=
  match d.open_file Mode.Replace fs with
  | Except.error e => Except.error e
  | Except.ok _ => Except.ok (d, fs.write_all d.pathbuf Mode.Replace content)

/-- `HashMap::insert`: replaces any existing binding for the key. -/
def mapInsert (m : List (String × Document)) (k : String) (v : Document) :
    List (String × Document) :=
  m.filter (fun e => e.1 ≠ k) ++ [(k, v)]

/-- The document-collection loop of `with` (src/src/lib.rs 955-978):
`none` means an `Err` entry was reached, its error printed, and the
caller's closure never invoked; `some m` means the closure is invoked with
the assembled map `m`. -/
def with_go : List (Except Err Document) → List (String × Document) →
    Option (List (String × Document))
  | [], document_map => some document_map
  | Except.error _ :: _, _ => none
  | Except.ok document :: rest, document_map =>
    let document_alias := document.alias
    if document_alias ≠ "_" then
      with_go rest (mapInsert document_map document_alias document)
    else
      with_go rest document_map

/-- `with` (src/src/lib.rs 955-978), embedded as the map the closure
receives — or `none` when the closure is never invoked. -/
def with_documents (documents : List (Except Err Document)) :
    Option (List (String × Document)) :=
  with_go documents []

/-- The last successfully constructed document carrying a given alias, read
off the claim's words about the assembled map. -/
def lastOkWithAlias : List (Except Err Document) → String → Option Document
  | [], _ => none
  | Except.error _ :: rest, k => lastOkWithAlias rest k
  | Except.ok d :: rest, k =>
    match lastOkWithAlias rest k with
    | some d2 => some d2
    | none => if d.alias = k then some d else none

theorem rfindPos_drop {l : List Char} {c : Char} {i : Nat}
    (h : rfindPos l c = some i) : ∃ t, l.drop i = c :: t := by
  induction l generalizing i with
  | nil => simp [rfindPos] at h
  | cons a as ih =>
    simp only [rfindPos] at h
    cases hr : rfindPos as c with
    | some j =>
      simp only [hr, Option.some.injEq] at h
      subst h
      simpa using ih hr
    | none =>
      simp only [hr] at h
      by_cases hac : a = c
      · rw [if_pos hac] at h
        simp only [Option.some.injEq] at h
        subst h
        exact ⟨as, by simp [hac]⟩
      · rw [if_neg hac] at h
        cases h

theorem parseI64_open_bracket (t : List Char) : parseI64 ('(' :: t) = none := by
  simp [parseI64]

/-- The `Ok` branch of the counter parse in `parse_filepath` is dead code:
the parsed slice `name[open..close]` starts with the `(` found by `rfind`
(or is empty), so `str::parse::<i64>` always fails and the duplicate
counter is never recognized. -/
theorem parse_filepath_counter_none (fname stem : String) (counter : Option Int)
    (ext : Option String) (h : parse_filepath fname = some (stem, counter, ext)) :
    counter = none := by
  simp only [parse_filepath] at h
  cases ho : rfindPos (stemAfterExtension fname).data '(' with
  | none =>
    cases hc : rfindPos (stemAfterExtension fname).data ')' <;>
      simp only [ho, hc, Option.some.injEq, Prod.mk.injEq] at h <;>
      exact h.2.1.symm
  | some o =>
    cases hc : rfindPos (stemAfterExtension fname).data ')' with
    | none =>
      simp only [ho, hc, Option.some.injEq, Prod.mk.injEq] at h
      exact h.2.1.symm
    | some c =>
      simp only [ho, hc] at h
      by_cases hlt : c < o
      · simp [hlt] at h
      · simp only [if_neg hlt] at h
        have hnone : parseI64 (((stemAfterExtension fname).data.drop o).take (c - o)) = none := by
          cases hk : c - o with
          | zero => rfl
          | succ k =>
            obtain ⟨t, ht⟩ := rfindPos_drop ho
            rw [ht, List.take_succ_cons]
            exact parseI64_open_bracket _
        simp only [hnone, Option.some.injEq, Prod.mk.injEq] at h
        exact h.2.1.symm

/-- C1: the spec claims `decompose(stem + "(" + n + ")" + ext).stem == stem`
with `n` recognized as the duplicate counter.  In the source the parsed
slice `name[open..close]` keeps the opening `(`, so the integer parse always
fails: on `"file" + "(" + 1 + ")" + ".txt"` the stem comes back as
`"file(1)"` with no counter, and in general no input ever yields a
counter. -/
theorem parse_counter_suffix_never_recognized :
    parse_filepath ("file" ++ "(" ++ intToStr 1 ++ ")" ++ ".txt") =
      some ("file(1)", none, some ".txt") ∧
    ∀ fname stem counter ext,
      parse_filepath fname = some (stem, counter, ext) → counter = none :=
  ⟨by decide, fun _ _ _ _ h => parse_filepath_counter_none _ _ _ _ h⟩

/-- C2: the spec claims the decomposer is total, naming `"a)b(c.txt"`.  On
that very input the source finds the last `(` after the last `)` and the
index subtraction panics (modelled by `none`): the function aborts instead
of degrading. -/
theorem parse_filepath_panics_on_reversed_brackets :
    parse_filepath "a)b(c.txt" = none := by decide

/-- C3: with `file(0).txt` existing, the spec says resolving `file(0).txt`
under the rename policy selects `file(1).txt`; because the counter `0` is
never parsed out (see the decomposer off-by-one), the loop reassembles from
stem `"file(0)"` and the source creates `file(0)(1).txt` instead. -/
theorem auto_rename_misparses_counter_suffix :
    Document.setup (Filepath.mk "d" "file(0).txt") Create.AutoRenameIfExists false
        (FS.mk [(Filepath.mk "d" "file(0).txt", [])] ["d"]) =
      some (Except.ok (Filepath.mk "d" "file(0)(1).txt"),
        FS.mk [(Filepath.mk "d" "file(0)(1).txt", []),
               (Filepath.mk "d" "file(0).txt", [])] ["d"]) ∧
    Filepath.mk "d" "file(0)(1).txt" ≠ Filepath.mk "d" "file(1).txt" := by
  decide

/-- C5: the spec claims Replace-mode opens truncate, so `replace_with`
leaves exactly the new contents.  `open_file` never sets the truncate flag,
so replacing `"hello"` by `"hi"` leaves `"hillo"` on disk. -/
theorem replace_with_keeps_stale_tail :
    Document.replace_with (Document.mk "f" (Filepath.mk "d" "f.txt") Create.No)
        [104, 105]
        (FS.mk [(Filepath.mk "d" "f.txt", [104, 101, 108, 108, 111])] ["d"]) =
      Except.ok (Document.mk "f" (Filepath.mk "d" "f.txt") Create.No,
        FS.mk [(Filepath.mk "d" "f.txt", [104, 105, 108, 108, 111])] ["d"]) ∧
    [104, 105, 108, 108, 111] ≠ ([104, 105] : List Byte) := by
  decide

theorem existsFile_create_dir_all (fs : FS) (d : String) (p : Filepath) :
    (fs.create_dir_all d).existsFile p = fs.existsFile p := by
  unfold FS.create_dir_all
  split <;> rfl

theorem files_create_dir_all (fs : FS) (d : String) :
    (fs.create_dir_all d).files = fs.files := by
  unfold FS.create_dir_all
  split <;> rfl

theorem dirs_create_dir_all (fs : FS) (d : String) :
    (fs.create_dir_all d).dirs = fs.dirs ∨ (fs.create_dir_all d).dirs = d :: fs.dirs := by
  unfold FS.create_dir_all
  split
  · exact Or.inl rfl
  · exact Or.inr rfl

/-- In dry-run mode the final existence check is skipped entirely. -/
theorem setup_post_dry (step : Option (Except Err Filepath × FS)) :
    Document.setup_post true step = step := by
  unfold Document.setup_post
  cases step with
  | none => rfl
  | some pr =>
    obtain ⟨re, fs2⟩ := pr
    cases re with
    | error e => rfl
    | ok q => simp

/-- A successful result of the final existence check was already a
successful result of the policy step, unchanged. -/
theorem setup_post_ok (dry : Bool) (step : Option (Except Err Filepath × FS))
    (pb : Filepath) (fs' : FS)
    (h : Document.setup_post dry step = some (Except.ok pb, fs')) :
    step = some (Except.ok pb, fs') := by
  cases step with
  | none => cases h
  | some pr =>
    obtain ⟨re, fs2⟩ := pr
    cases re with
    | error e => simp [Document.setup_post] at h
    | ok q =>
      simp only [Document.setup_post] at h
      by_cases hc : ¬ fs2.existsFile q ∧ ¬ dry
      · rw [if_pos hc] at h
        simp at h
      · rw [if_neg hc] at h
        exact h

/-- C4 counterexample: a dry run with a missing parent directory still
creates that directory. -/
theorem dry_run_touches_filesystem_counterexample :
    Document.setup (Filepath.mk "dir" "file.txt") Create.AutoRenameIfExists true
        (FS.mk [] []) =
      some (Except.ok (Filepath.mk "dir" "file.txt"), FS.mk [] ["dir"]) ∧
    FS.mk ([] : List (Filepath × List Byte)) ["dir"] ≠ FS.mk [] [] := by
  decide

/-- C4 (amended): a dry run creates no file — the file list is untouched —
but parent-directory creation is not guarded by `dry_run` and may still add
the parent directory. -/
theorem dry_run_no_file_creation (p : Filepath) (create : Create) (fs : FS)
    (r : Except Err Filepath) (fs' : FS)
    (h : Document.setup p create true fs = some (r, fs')) :
    fs'.files = fs.files ∧ (fs'.dirs = fs.dirs ∨ fs'.dirs = p.parent :: fs.dirs) := by
  unfold Document.setup at h
  cases hp : parse_filepath p.fname with
  | none => rw [hp] at h; cases h
  | some res =>
    obtain ⟨name, dno, eo⟩ := res
    simp only [hp, setup_post_dry] at h
    cases create with
    | No =>
      simp only [Document.setup_policy] at h
      cases h
      exact ⟨rfl, Or.inl rfl⟩
    | OnlyIfNotExists =>
      simp only [Document.setup_policy, not_true, and_false, if_false] at h
      cases h
      exact ⟨files_create_dir_all fs p.parent, dirs_create_dir_all fs p.parent⟩
    | AutoRenameIfExists =>
      simp only [Document.setup_policy] at h
      split at h
      · cases h
      · simp only [not_true, if_false] at h
        cases h
        exact ⟨files_create_dir_all fs p.parent, dirs_create_dir_all fs p.parent⟩

/-- C4 witness. -/
theorem dry_run_no_file_creation_witness :
    (FS.mk [] ["dir"]).files = (FS.mk ([] : List (Filepath × List Byte)) []).files ∧
    ((FS.mk ([] : List (Filepath × List Byte)) ["dir"]).dirs =
        (FS.mk ([] : List (Filepath × List Byte)) []).dirs ∨
      (FS.mk ([] : List (Filepath × List Byte)) ["dir"]).dirs =
        (Filepath.mk "dir" "file.txt").parent :: (FS.mk ([] : List (Filepath × List Byte)) []).dirs) :=
  dry_run_no_file_creation (Filepath.mk "dir" "file.txt") Create.AutoRenameIfExists
    (FS.mk [] []) (Except.ok (Filepath.mk "dir" "file.txt")) (FS.mk [] ["dir"]) (by decide)

/-- C7 counterexample: under `Create::No` against an *existing* file whose
name triggers the decomposer's bracket-order panic, resolution aborts
instead of succeeding with the path unchanged. -/
theorem never_policy_panic_counterexample :
    (FS.mk [(Filepath.mk "d" "a)b(c.txt", [])] ["d"]).existsFile
        (Filepath.mk "d" "a)b(c.txt") = true ∧
    Document.setup (Filepath.mk "d" "a)b(c.txt") Create.No false
        (FS.mk [(Filepath.mk "d" "a)b(c.txt", [])] ["d"]) = none ∧
    (none : Option (Except Err Filepath × FS)) ≠
      some (Except.ok (Filepath.mk "d" "a)b(c.txt"),
        FS.mk [(Filepath.mk "d" "a)b(c.txt", [])] ["d"]) := by
  decide

/-- C7 (amended): provided the filename does not trigger the decomposer's
bracket-order panic, the `Never` policy fails with `FileNotFound` on a
missing path and succeeds with the path unchanged on an existing one, both
leaving the filesystem untouched. -/
theorem never_policy_spec (p : Filepath) (fs : FS)
    (hp : (parse_filepath p.fname).isSome) :
    (fs.existsFile p = false →
      Document.setup p Create.No false fs =
        some (Except.error (Err.doc (DocumentError.FileNotFound p.path)), fs)) ∧
    (fs.existsFile p = true →
      Document.setup p Create.No false fs = some (Except.ok p, fs)) := by
  obtain ⟨res, hres⟩ := Option.isSome_iff_exists.mp hp
  obtain ⟨name, dno, eo⟩ := res
  unfold Document.setup
  simp only [hres, Document.setup_policy, Document.setup_post]
  constructor
  · intro hex
    rw [if_pos]
    exact ⟨by simp [hex], by simp⟩
  · intro hex
    rw [if_neg]
    simp [hex]

/-- C7 witness. -/
theorem never_policy_spec_witness :
    ((FS.mk ([] : List (Filepath × List Byte)) []).existsFile (Filepath.mk "d" "x.txt") = false →
      Document.setup (Filepath.mk "d" "x.txt") Create.No false (FS.mk [] []) =
        some (Except.error (Err.doc (DocumentError.FileNotFound (Filepath.mk "d" "x.txt").path)),
          FS.mk [] [])) ∧
    ((FS.mk ([] : List (Filepath × List Byte)) []).existsFile (Filepath.mk "d" "x.txt") = true →
      Document.setup (Filepath.mk "d" "x.txt") Create.No false (FS.mk [] []) =
        some (Except.ok (Filepath.mk "d" "x.txt"), FS.mk [] [])) :=
  never_policy_spec (Filepath.mk "d" "x.txt") (FS.mk [] []) (by decide)

/-- A successful non-dry-run rename resolution returns a path that did not
exist before the call and exists after it. -/
theorem setup_auto_ok (p r : Filepath) (fs fs' : FS)
    (h : Document.setup p Create.AutoRenameIfExists false fs = some (Except.ok r, fs')) :
    fs.existsFile r = false ∧ fs'.existsFile r = true := by
  unfold Document.setup at h
  cases hp : parse_filepath p.fname with
  | none => rw [hp] at h; cases h
  | some res =>
    obtain ⟨name, dno, eo⟩ := res
    simp only [hp] at h
    have hstep := setup_post_ok _ _ _ _ h
    simp only [Document.setup_policy] at hstep
    split at hstep
    · cases hstep
    · rw [if_pos (by simp)] at hstep
      split at hstep
      · next fs2 hcn =>
        cases hstep
        unfold FS.create_new at hcn
        by_cases he : (fs.create_dir_all p.parent).existsFile r
        · rw [if_pos he] at hcn
          cases hcn
        · rw [if_neg he] at hcn
          cases hcn
          constructor
          · rw [existsFile_create_dir_all] at he
            simpa using he
          · simp [FS.existsFile]
      · next e hcn =>
        simp at hstep

/-- C6: three consecutive resolutions of `file.txt` under the rename policy
create `file.txt`, `file(1).txt` and `file(2).txt`; and in general two
consecutive successful resolutions of the same starting name never return
the same final path, since the first call creates its result and the second
never returns an existing path. -/
theorem auto_rename_three_runs_and_distinct :
    (Document.setup (Filepath.mk "d" "file.txt") Create.AutoRenameIfExists false
        (FS.mk [] []) =
      some (Except.ok (Filepath.mk "d" "file.txt"),
        FS.mk [(Filepath.mk "d" "file.txt", [])] ["d"]) ∧
     Document.setup (Filepath.mk "d" "file.txt") Create.AutoRenameIfExists false
        (FS.mk [(Filepath.mk "d" "file.txt", [])] ["d"]) =
      some (Except.ok (Filepath.mk "d" "file(1).txt"),
        FS.mk [(Filepath.mk "d" "file(1).txt", []), (Filepath.mk "d" "file.txt", [])] ["d"]) ∧
     Document.setup (Filepath.mk "d" "file.txt") Create.AutoRenameIfExists false
        (FS.mk [(Filepath.mk "d" "file(1).txt", []), (Filepath.mk "d" "file.txt", [])] ["d"]) =
      some (Except.ok (Filepath.mk "d" "file(2).txt"),
        FS.mk [(Filepath.mk "d" "file(2).txt", []), (Filepath.mk "d" "file(1).txt", []),
               (Filepath.mk "d" "file.txt", [])] ["d"])) ∧
    ∀ (pathbuf r1 r2 : Filepath) (fs fs1 fs2 : FS),
      Document.setup pathbuf Create.AutoRenameIfExists false fs = some (Except.ok r1, fs1) →
      Document.setup pathbuf Create.AutoRenameIfExists false fs1 = some (Except.ok r2, fs2) →
      r1 ≠ r2 := by
  constructor
  · exact ⟨by decide, by decide, by decide⟩
  · intro pathbuf r1 r2 fs fs1 fs2 h1 h2 heq
    obtain ⟨-, he1⟩ := setup_auto_ok _ _ _ _ h1
    obtain ⟨he2, -⟩ := setup_auto_ok _ _ _ _ h2
    rw [heq] at he1
    rw [he1] at he2
    cases he2

/-- C6 witness. -/
theorem auto_rename_distinct_witness :
    Filepath.mk "d" "file.txt" ≠ Filepath.mk "d" "file(1).txt" :=
  auto_rename_three_runs_and_distinct.2 (Filepath.mk "d" "file.txt")
    (Filepath.mk "d" "file.txt") (Filepath.mk "d" "file(1).txt")
    (FS.mk [] []) (FS.mk [(Filepath.mk "d" "file.txt", [])] ["d"])
    (FS.mk [(Filepath.mk "d" "file(1).txt", []), (Filepath.mk "d" "file.txt", [])] ["d"])
    (by decide) (by decide)

theorem mem_mapInsert (m : List (String × Document)) (a : String) (v : Document)
    (k : String) (d : Document) :
    ((k, d) ∈ mapInsert m a v) ↔ ((k = a ∧ d = v) ∨ ((k, d) ∈ m ∧ k ≠ a)) := by
  unfold mapInsert
  simp only [List.mem_append, List.mem_filter, List.mem_singleton, Prod.mk.injEq,
    decide_eq_true_eq]
  tauto

theorem lastOkWithAlias_alias (docs : List (Except Err Document)) (k : String)
    (d : Document) (h : lastOkWithAlias docs k = some d) : d.alias = k := by
  induction docs with
  | nil => cases h
  | cons r rest ih =>
    cases r with
    | error e => exact ih (by simpa [lastOkWithAlias] using h)
    | ok dd =>
      simp only [lastOkWithAlias] at h
      cases hrest : lastOkWithAlias rest k with
      | some d2 =>
        rw [hrest] at h
        simp only [Option.some.injEq] at h
        subst h
        exact ih hrest
      | none =>
        rw [hrest] at h
        by_cases hdk : dd.alias = k
        · rw [if_pos hdk] at h
          simp only [Option.some.injEq] at h
          subst h
          exact hdk
        · rw [if_neg hdk] at h
          cases h

/-- Membership characterization of the map assembled by `with`: an entry is
the last successfully constructed document with that alias, and the
sentinel alias `"_"` is never a key. -/
theorem with_go_mem (docs : List (Except Err Document))
    (acc m : List (String × Document))
    (hacc : ∀ d', ("_", d') ∉ acc)
    (h : with_go docs acc = some m) (k : String) (d : Document) :
    (k, d) ∈ m ↔
      (match lastOkWithAlias docs k with
       | some d2 => k ≠ "_" ∧ d = d2
       | none => (k, d) ∈ acc) := by
  induction docs generalizing acc with
  | nil =>
    simp only [with_go, Option.some.injEq] at h
    subst h
    simp [lastOkWithAlias]
  | cons r rest ih =>
    cases r with
    | error e => simp [with_go] at h
    | ok dd =>
      simp only [with_go] at h
      by_cases hal : dd.alias ≠ "_"
      · rw [if_pos hal] at h
        have hacc' : ∀ d', ("_", d') ∉ mapInsert acc dd.alias dd := by
          intro d' hmem
          rcases (mem_mapInsert acc dd.alias dd "_" d').mp hmem with ⟨h1, -⟩ | ⟨h1, -⟩
          · exact hal h1.symm
          · exact hacc d' h1
        rw [ih _ hacc' h]
        cases hrest : lastOkWithAlias rest k with
        | some d2 => simp [lastOkWithAlias, hrest]
        | none =>
          simp only [lastOkWithAlias, hrest, mem_mapInsert]
          by_cases hdk : dd.alias = k
          · subst hdk
            simp only [if_pos rfl]
            constructor
            · rintro (⟨-, hd⟩ | ⟨-, hne⟩)
              · exact ⟨fun hk => hal hk, hd⟩
              · exact absurd rfl hne
            · rintro ⟨-, hd⟩
              exact Or.inl ⟨by trivial, hd⟩
          · rw [if_neg hdk]
            constructor
            · rintro (⟨hk, -⟩ | ⟨hmem, -⟩)
              · exact absurd hk.symm hdk
              · exact hmem
            · intro hmem
              exact Or.inr ⟨hmem, fun hk => hdk hk.symm⟩
      · rw [if_neg hal] at h
        have hal' : dd.alias = "_" := by
          by_contra hne
          exact hal hne
        rw [ih _ hacc h]
        cases hrest : lastOkWithAlias rest k with
        | some d2 => simp [lastOkWithAlias, hrest]
        | none =>
          simp only [lastOkWithAlias, hrest]
          by_cases hdk : dd.alias = k
          · rw [if_pos hdk]
            have hk : k = "_" := hdk ▸ hal'
            constructor
            · intro hmem
              exact absurd (hk ▸ hmem) (hacc d)
            · rintro ⟨hne, -⟩
              exact absurd hk hne
          · rw [if_neg hdk]

theorem with_go_error (docs : List (Except Err Document))
    (acc : List (String × Document)) (e : Err)
    (he : Except.error e ∈ docs) : with_go docs acc = none := by
  induction docs generalizing acc with
  | nil => cases he
  | cons r rest ih =>
    cases r with
    | error e2 => simp [with_go]
    | ok dd =>
      have he' : Except.error e ∈ rest := by
        rcases List.mem_cons.mp he with h1 | h1
        · cases h1
        · exact h1
      simp only [with_go]
      by_cases hal : dd.alias ≠ "_"
      · rw [if_pos hal]
        exact ih _ he'
      · rw [if_neg hal]
        exact ih _ he'

theorem with_go_all_ok (docs : List (Except Err Document))
    (acc : List (String × Document))
    (hok : ∀ r ∈ docs, ∃ d, r = Except.ok d) :
    ∃ m, with_go docs acc = some m := by
  induction docs generalizing acc with
  | nil => exact ⟨acc, rfl⟩
  | cons r rest ih =>
    obtain ⟨d, rfl⟩ := hok r (List.mem_cons_self r rest)
    have hok' : ∀ r ∈ rest, ∃ d, r = Except.ok d :=
      fun r hr => hok r (List.mem_cons_of_mem _ hr)
    simp only [with_go]
    by_cases hal : d.alias ≠ "_"
    · rw [if_pos hal]
      exact ih _ hok'
    · rw [if_neg hal]
      exact ih _ hok'

/-- C8 counterexample: with two successfully constructed documents sharing
the alias `"a"`, the first is absent from the assembled map even though it
is a successful entry with a non-sentinel alias — the map does not contain
*exactly* the successful documents. -/
theorem with_duplicate_alias_counterexample :
    with_documents
        [Except.ok (Document.mk "a" (Filepath.mk "d" "a.txt") Create.No),
         Except.ok (Document.mk "a" (Filepath.mk "d" "c.txt") Create.No)] =
      some [("a", Document.mk "a" (Filepath.mk "d" "c.txt") Create.No)] ∧
    Document.mk "a" (Filepath.mk "d" "a.txt") Create.No ≠
      Document.mk "a" (Filepath.mk "d" "c.txt") Create.No := by
  decide

/-- C8 (amended): any `Err` entry means the closure is never invoked; an
all-`Ok` list does invoke it; and the map handed over holds, for each
non-sentinel alias, exactly the *last* successful document carrying it
(earlier duplicates are overwritten), documents aliased `"_"` being
omitted. -/
theorem with_documents_spec :
    (∀ (docs : List (Except Err Document)) (e : Err),
      Except.error e ∈ docs → with_documents docs = none) ∧
    (∀ docs : List (Except Err Document),
      (∀ r ∈ docs, ∃ d, r = Except.ok d) → ∃ m, with_documents docs = some m) ∧
    (∀ (docs : List (Except Err Document)) (m : List (String × Document)),
      with_documents docs = some m →
      ∀ k d, ((k, d) ∈ m ↔ (k ≠ "_" ∧ lastOkWithAlias docs k = some d))) := by
  refine ⟨fun docs e he => with_go_error docs [] e he,
          fun docs hok => with_go_all_ok docs [] hok, ?_⟩
  intro docs m h k d
  rw [with_go_mem docs [] m (by simp) h k d]
  cases hl : lastOkWithAlias docs k with
  | some d2 =>
    simp only [Option.some.injEq]
    constructor
    · rintro ⟨hk, hd⟩
      exact ⟨hk, hd.symm⟩
    · rintro ⟨hk, hd⟩
      exact ⟨hk, hd.symm⟩
  | none => simp

/-- C8 witness. -/
theorem with_documents_spec_witness :
    with_documents [Except.error Err.os] = none ∧
    (("a", Document.mk "a" (Filepath.mk "d" "a.txt") Create.No) ∈
        ([("a", Document.mk "a" (Filepath.mk "d" "a.txt") Create.No)] :
          List (String × Document)) ↔
      ("a" ≠ "_" ∧
        lastOkWithAlias [Except.ok (Document.mk "a" (Filepath.mk "d" "a.txt") Create.No)] "a" =
          some (Document.mk "a" (Filepath.mk "d" "a.txt") Create.No))) :=
  ⟨with_documents_spec.1 [Except.error Err.os] Err.os (List.mem_cons_self _ _),
   with_documents_spec.2.2
     [Except.ok (Document.mk "a" (Filepath.mk "d" "a.txt") Create.No)]
     [("a", Document.mk "a" (Filepath.mk "d" "a.txt") Create.No)] (by decide)
     "a" (Document.mk "a" (Filepath.mk "d" "a.txt") Create.No)⟩

/-- C9: in every map produced by the batch entry point, each stored
document's alias equals its key, and the sentinel key `"_"` never
appears. -/
theorem document_map_key_invariant (docs : List (Except Err Document))
    (m : List (String × Document)) (h : with_documents docs = some m) :
    ∀ e ∈ m, e.2.alias = e.1 ∧ e.1 ≠ "_" := by
  intro e he
  obtain ⟨k, d⟩ := e
  have hme := (with_go_mem docs [] m (by simp) h k d).mp he
  cases hl : lastOkWithAlias docs k with
  | none =>
    rw [hl] at hme
    cases hme
  | some d2 =>
    rw [hl] at hme
    obtain ⟨hk, hd⟩ := hme
    refine ⟨?_, hk⟩
    show d.alias = k
    rw [hd]
    exact lastOkWithAlias_alias docs k d2 hl

/-- C9 witness. -/
theorem document_map_key_invariant_witness :
    ("a", Document.mk "a" (Filepath.mk "d" "a.txt") Create.No).2.alias =
      ("a", Document.mk "a" (Filepath.mk "d" "a.txt") Create.No).1 ∧
    ("a", Document.mk "a" (Filepath.mk "d" "a.txt") Create.No).1 ≠ "_" :=
  document_map_key_invariant
    [Except.ok (Document.mk "a" (Filepath.mk "d" "a.txt") Create.No)]
    [("a", Document.mk "a" (Filepath.mk "d" "a.txt") Create.No)] (by decide)
    ("a", Document.mk "a" (Filepath.mk "d" "a.txt") Create.No) (by decide)

theorem map_fst_write (l : List (Filepath × List Byte)) (p : Filepath) (m : Mode)
    (content : List Byte) :
    (l.map (fun e =>
      if e.1 == p then
        (e.1, if m.appendable then e.2 ++ content else content ++ e.2.drop content.length)
      else e)).map Prod.fst = l.map Prod.fst := by
  induction l with
  | nil => rfl
  | cons e rest ih =>
    simp only [List.map_cons, ih, List.cons.injEq, and_true]
    split <;> rfl

theorem write_all_other_files (fs : FS) (p : Filepath) (m : Mode)
    (content : List Byte) :
    ∀ e ∈ fs.files, e.1 ≠ p → e ∈ (fs.write_all p m content).files := by
  intro e he hne
  unfold FS.write_all
  refine List.mem_map.mpr ⟨e, he, ?_⟩
  simp [hne]

/-- C10: `append` and `replace_with` return the very same handle — alias,
resolved path and creation policy unchanged — and only contents of the
underlying file change: the set of files, the directories and every other
file's contents are untouched. -/
theorem append_replace_preserve_identity :
    ∀ (d : Document) (content : List Byte) (fs : FS) (d' : Document) (fs' : FS),
      (Document.append d content fs = Except.ok (d', fs') ∨
       Document.replace_with d content fs = Except.ok (d', fs')) →
      d' = d ∧ d'.alias = d.alias ∧ d'.pathbuf = d.pathbuf ∧
        d'.create_policy = d.create_policy ∧
        fs'.files.map Prod.fst = fs.files.map Prod.fst ∧ fs'.dirs = fs.dirs ∧
        ∀ e ∈ fs.files, e.1 ≠ d.pathbuf → e ∈ fs'.files := by
  intro d content fs d' fs' h
  have hsplit :
      d' = d ∧ (fs' = fs.write_all d.pathbuf Mode.Append content ∨
                fs' = fs.write_all d.pathbuf Mode.Replace content) := by
    rcases h with h | h
    · unfold Document.append Document.open_file at h
      by_cases hex : fs.existsFile d.pathbuf
      · rw [if_pos hex] at h
        simp only [Except.ok.injEq, Prod.mk.injEq] at h
        exact ⟨h.1.symm, Or.inl h.2.symm⟩
      · rw [if_neg hex] at h
        cases h
    · unfold Document.replace_with Document.open_file at h
      by_cases hex : fs.existsFile d.pathbuf
      · rw [if_pos hex] at h
        simp only [Except.ok.injEq, Prod.mk.injEq] at h
        exact ⟨h.1.symm, Or.inr h.2.symm⟩
      · rw [if_neg hex] at h
        cases h
  obtain ⟨hd, hfs⟩ := hsplit
  subst hd
  refine ⟨rfl, rfl, rfl, rfl, ?_, ?_, ?_⟩
  · rcases hfs with h2 | h2 <;> subst h2 <;>
      exact map_fst_write fs.files d'.pathbuf _ content
  · rcases hfs with h2 | h2 <;> subst h2 <;> rfl
  · rcases hfs with h2 | h2 <;> subst h2 <;>
      exact write_all_other_files fs d'.pathbuf _ content

/-- C10 witness. -/
theorem append_replace_preserve_identity_witness :
    Document.mk "f" (Filepath.mk "d" "f.txt") Create.No =
        Document.mk "f" (Filepath.mk "d" "f.txt") Create.No ∧
    (Document.mk "f" (Filepath.mk "d" "f.txt") Create.No).alias =
        (Document.mk "f" (Filepath.mk "d" "f.txt") Create.No).alias ∧
    (Document.mk "f" (Filepath.mk "d" "f.txt") Create.No).pathbuf =
        (Document.mk "f" (Filepath.mk "d" "f.txt") Create.No).pathbuf ∧
    (Document.mk "f" (Filepath.mk "d" "f.txt") Create.No).create_policy =
        (Document.mk "f" (Filepath.mk "d" "f.txt") Create.No).create_policy ∧
    (FS.mk [(Filepath.mk "d" "f.txt", [1, 2, 3])] ["d"]).files.map Prod.fst =
        (FS.mk [(Filepath.mk "d" "f.txt", [1, 2])] ["d"]).files.map Prod.fst ∧
    (FS.mk [(Filepath.mk "d" "f.txt", [1, 2, 3])] ["d"]).dirs =
        (FS.mk [(Filepath.mk "d" "f.txt", [1, 2])] ["d"]).dirs ∧
    ∀ e ∈ (FS.mk [(Filepath.mk "d" "f.txt", [1, 2])] ["d"]).files,
      e.1 ≠ (Document.mk "f" (Filepath.mk "d" "f.txt") Create.No).pathbuf →
      e ∈ (FS.mk [(Filepath.mk "d" "f.txt", [1, 2, 3])] ["d"]).files :=
  append_replace_preserve_identity
    (Document.mk "f" (Filepath.mk "d" "f.txt") Create.No) [3]
    (FS.mk [(Filepath.mk "d" "f.txt", [1, 2])] ["d"])
    (Document.mk "f" (Filepath.mk "d" "f.txt") Create.No)
    (FS.mk [(Filepath.mk "d" "f.txt", [1, 2, 3])] ["d"])
    (Or.inl (by decide))

end Documents
